import Mathlib

/-!
The HTTP load-test target of hey-loadtest-clusters (`main.go`).

A shallow embedding of the server built in `main`: the three route
handlers, the `ServeMux` route table, the `promhttp` request-counter
decorator and the `middleware` wrapper, over an explicit metrics state.

Conventions of the embedding.

* A `ResponseWriter` is the record of what a handler did to it: the status
  passed to `WriteHeader` (if any), the header map and the bytes written.
* `float64` values are carried as exact rationals plus the three special
  values; rounding is not modelled, so finite values are the real ones
  whenever they are integers below `2 ^ 53`.
* Library code that is not part of the repository (`net/http`, `strconv`,
  `promhttp`, `prometheus`) is modelled from its documented behaviour; what
  depends on the library version is taken as a parameter (`Env`).
-/

set_option exponentiation.threshold 2048

namespace HeyLoadtest

/-! ## float64 values and `strconv` -/

/-- A `float64`: a finite value (kept exact), an infinity or NaN. -/
inductive F64 where
  | fin (q : ℚ)
  | posInf
  | negInf
  | nan
  deriving DecidableEq, Repr

/-- Go's `a + b` on `float64`. A finite sum is kept exact: it is the value
Go computes whenever the exact sum is a `float64`, as it is for integers of
magnitude up to `2 ^ 53`; statements about exact amounts carry that bound. -/
def F64.add : F64 → F64 → F64
  | .fin a, .fin b => .fin (a + b)
  | .nan, _ => .nan
  | _, .nan => .nan
  | .posInf, .negInf => .nan
  | .negInf, .posInf => .nan
  | .posInf, _ => .posInf
  | _, .posInf => .posInf
  | .negInf, _ => .negInf
  | _, .negInf => .negInf

/-- Go's `v < 0` on `float64` (false for NaN). -/
def F64.isNeg : F64 → Bool
  | .fin q => decide (q < 0)
  | .negInf => true
  | _ => false

/-- Go's `a < b` on `float64` (false as soon as one side is NaN). -/
def F64.lt : F64 → F64 → Prop
  | .fin a, .fin b => a < b
  | .fin _, .posInf => True
  | .negInf, .fin _ => True
  | .negInf, .posInf => True
  | _, _ => False

/-- The result pair of `strconv.ParseFloat(s, 64)`: `ok v` is `(v, nil)`,
`errSyntax` is `(0, ErrSyntax)` and `errRange neg` is `(±Inf, ErrRange)`. -/
inductive ParseResult where
  | ok (v : F64)
  | errSyntax
  | errRange (neg : Bool)
  deriving DecidableEq, Repr

/-- The first component of the pair, which is what `s, _ := ...` keeps. -/
def ParseResult.value : ParseResult → F64
  | .ok v => v
  | .errSyntax => .fin 0
  | .errRange neg => if neg then .negInf else .posInf

/-- The value of a decimal digit character, `none` for any other. -/
def digitVal (c : Char) : Option Nat :=
  if 48 ≤ c.toNat ∧ c.toNat ≤ 57 then some (c.toNat - 48) else none

/-- Reads the longest run of decimal digits at the front of `cs`, folding it
onto `acc`: the value, the number of digits read and the rest. -/
def readDigits : List Char → Nat → Nat → Nat × Nat × List Char
  | [], acc, n => (acc, n, [])
  | c :: cs, acc, n =>
    match digitVal c with
    | some d => readDigits cs (10 * acc + d) (n + 1)
    | none => (acc, n, c :: cs)

/-- Strips one leading sign: whether it was `-`, and the rest. -/
def readSign : List Char → Bool × List Char
  | '-' :: cs => (true, cs)
  | '+' :: cs => (false, cs)
  | cs => (false, cs)

/-- The rounding boundary of `float64`, `2 ^ 1024 - 2 ^ 970`: a magnitude at
or above it parses to an infinity with `ErrRange`. -/
def maxFloat64Bound : Nat := 2 ^ 1024 - 2 ^ 970

/-- The finite value `±n / d`. -/
def signedRat (neg : Bool) (n d : Nat) : ℚ :=
  mkRat (if neg then -(n : Int) else (n : Int)) d

/-- The value `±mant * 10 ^ e` as a parse result, with the range check. -/
def decimalResult (neg : Bool) (mant : Nat) (e : Int) : ParseResult :=
  match e with
  | .ofNat k =>
    if maxFloat64Bound ≤ mant * 10 ^ k then .errRange neg
    else .ok (.fin (signedRat neg (mant * 10 ^ k) 1))
  | .negSucc k =>
    if maxFloat64Bound * 10 ^ (k + 1) ≤ mant then .errRange neg
    else .ok (.fin (signedRat neg mant (10 ^ (k + 1))))

/-- The decimal literals of `strconv.ParseFloat`:
`[+-] digits [. digits] [(e|E) [+-] digits]` with at least one mantissa
digit. `none` when `cs` is not of that shape. -/
def parseDecimal (cs : List Char) : Option ParseResult :=
  let (neg, r0) := readSign cs
  let (ip, ni, r1) := readDigits r0 0 0
  let (mant, nf, r2) :=
    match r1 with
    | '.' :: r => readDigits r ip 0
    | _ => (ip, 0, r1)
  if ni + nf = 0 then none
  else
    match r2 with
    | [] => some (decimalResult neg mant (-(nf : Int)))
    | c :: r =>
      if c = 'e' ∨ c = 'E' then
        let (eneg, r3) := readSign r
        let (ev, ne, r4) := readDigits r3 0 0
        if ne = 0 ∨ r4 ≠ [] then none
        else some (decimalResult neg mant ((if eneg then -(ev : Int) else ev) - nf))
      else none

/-- The function `strconv.ParseFloat(s, 64)`. Decimal literals are parsed
here; the empty string is a syntax error; every other spelling (`Inf`,
`NaN`, hexadecimal mantissas, digit-separating underscores, garbage) is
decided by `ext`, since what is accepted there depends on the Go release. -/
def parseFloat (ext : String → ParseResult) (s : String) : ParseResult :=
  match parseDecimal s.toList with
  | some r => r
  | none => if s = "" then .errSyntax else ext s

/-- The function `strconv.FormatInt(i, 10)`. -/
def formatInt (i : Int) : String :=
  match i with
  | .ofNat n => Nat.repr n
  | .negSucc n => "-" ++ Nat.repr (n + 1)

/-- A release of `strconv` that accepts decimal literals only. -/
def decimalOnly : String → ParseResult := fun _ => .errSyntax

/-! ## `net/http`: response writers, headers, requests -/

/-- The bytes of a Go string constant, `[]byte(s)`. -/
def bytesOf (s : String) : List UInt8 := s.toUTF8.data.toList

/-- The method `Header.Get`: the value stored under `k`, `""` when absent. -/
def headerGet : List (String × String) → String → String
  | [], _ => ""
  | (k', v) :: h, k => if k' = k then v else headerGet h k

/-- Whether the header map has an entry under `k`. -/
def headerHas : List (String × String) → String → Bool
  | [], _ => false
  | (k', _) :: h, k => if k' = k then true else headerHas h k

/-- The method `Header.Set`: replaces the value under `k`, or adds the entry. -/
def headerSet : List (String × String) → String → String → List (String × String)
  | [], k, v => [(k, v)]
  | (k', v') :: h, k, v => if k' = k then (k, v) :: h else (k', v') :: headerSet h k v

/-- What a handler has done to its `http.ResponseWriter`: the status passed
to `WriteHeader` (`none` while no header was written), the header map, and
the bytes written to the body. -/
structure ResponseWriter where
  status : Option Nat
  header : List (String × String)
  body : List UInt8
  deriving DecidableEq, Repr

/-- The writer a handler receives. -/
def ResponseWriter.fresh : ResponseWriter := ⟨none, [], []⟩

/-- The method `w.WriteHeader(code)`; a second call is ignored. -/
def ResponseWriter.writeHeader (w : ResponseWriter) (code : Nat) : ResponseWriter :=
  match w.status with
  | none => { w with status := some code }
  | some _ => w

/-- The method `w.Write(bs)`, which first sends the header with status 200
when none was sent. -/
def ResponseWriter.write (w : ResponseWriter) (bs : List UInt8) : ResponseWriter :=
  let w1 := w.writeHeader 200
  { w1 with body := w1.body ++ bs }

/-- The method `w.Header().Set(k, v)`. -/
def ResponseWriter.setHeader (w : ResponseWriter) (k v : String) : ResponseWriter :=
  { w with header := headerSet w.header k v }

/-- The status the client receives: the one written, 200 when the handler
returned without writing any. -/
def ResponseWriter.statusCode (w : ResponseWriter) : Nat := w.status.getD 200

/-- The parts of `*http.Request` the program reads. -/
structure Request where
  method : String
  requestURI : String
  path : String
  rawQuery : String
  protoAtLeast11 : Bool
  deriving DecidableEq, Repr

/-- The function `http.Error`. -/
def httpError (w : ResponseWriter) (msg : String) (code : Nat) : ResponseWriter :=
  let w1 := w.setHeader "Content-Type" "text/plain; charset=utf-8"
  let w2 := w1.setHeader "X-Content-Type-Options" "nosniff"
  let w3 := w2.writeHeader code
  w3.write (bytesOf (msg ++ "\n"))

/-- The function `http.NotFound`. -/
def httpNotFound (w : ResponseWriter) : ResponseWriter :=
  httpError w "404 page not found" 404

/-- The function `htmlEscape` of `net/http`. -/
def htmlEscape : List Char → List Char
  | [] => []
  | c :: cs =>
    (if c = '&' then "&amp;".toList
     else if c = '<' then "&lt;".toList
     else if c = '>' then "&gt;".toList
     else if c = '"' then "&#34;".toList
     else if c = '\'' then "&#39;".toList
     else [c]) ++ htmlEscape cs

/-- The function `http.Redirect(w, r, url, 301)`. -/
def httpRedirect (w : ResponseWriter) (r : Request) (url : String) : ResponseWriter :=
  let hadCT := headerHas w.header "Content-Type"
  let w1 := w.setHeader "Location" url
  let w2 := if !hadCT && (r.method = "GET" || r.method = "HEAD")
    then w1.setHeader "Content-Type" "text/html; charset=utf-8" else w1
  let w3 := w2.writeHeader 301
  if !hadCT && r.method = "GET"
  then w3.write (bytesOf ("<a href=\"" ++ String.mk (htmlEscape url.toList) ++ "\">Moved Permanently</a>.\n\n"))
  else w3

/-! ## `ServeMux` path canonicalisation -/

/-- Splits a path at every `/`. -/
def splitSlash : List Char → List (List Char)
  | [] => [[]]
  | c :: cs =>
    match splitSlash cs with
    | [] => [[]]
    | e :: es => if c = '/' then [] :: e :: es else (c :: e) :: es

/-- The element pass of `path.Clean` on a rooted path: empty and `.`
elements are dropped, `..` removes the element before it (nothing at the
root). `acc` is the stack of kept elements, last first. -/
def cleanElems : List (List Char) → List (List Char) → List (List Char)
  | [], acc => acc.reverse
  | e :: es, acc =>
    if e = [] ∨ e = ['.'] then cleanElems es acc
    else if e = ['.', '.'] then cleanElems es acc.tail
    else cleanElems es (e :: acc)

/-- The function `path.Clean` on a rooted path. -/
def pathClean (p : List Char) : List Char :=
  '/' :: List.intercalate ['/'] (cleanElems (splitSlash p) [])

/-- The function `cleanPath` of `net/http`. -/
def cleanPath (p : String) : String :=
  if p = "" then "/"
  else
    let q := if p.toList.head? = some '/' then p.toList else '/' :: p.toList
    let np := pathClean q
    if q.getLast? = some '/' ∧ np ≠ ['/'] then String.mk (np ++ ['/']) else String.mk np

/-! ## The metrics registry (`init`) -/

/-- The children of a `prometheus.CounterVec`, by label values. -/
abbrev CounterVec (κ α : Type) := List (κ × α)

/-- The current value of the child at `k`, `d` when there is none. -/
def CounterVec.get {κ α : Type} [DecidableEq κ] (d : α) : CounterVec κ α → κ → α
  | [], _ => d
  | (k', v) :: m, k => if k' = k then v else CounterVec.get d m k

/-- The method `With(labels)` followed by an update `f` of the child: the
child is created with value `d` when it does not exist yet. -/
def CounterVec.update {κ α : Type} [DecidableEq κ] (d : α) (f : α → α) :
    CounterVec κ α → κ → CounterVec κ α
  | [], k => [(k, f d)]
  | (k', v) :: m, k =>
    if k' = k then (k', f v) :: m else (k', v) :: CounterVec.update d f m k

/-- The sum of a counter over all its label pairs. -/
def CounterVec.total {κ : Type} (m : CounterVec κ Nat) : Nat := (m.map Prod.snd).sum

/-- The process-wide metrics: the sample count of the summary
`httpRequestsResponseTime` (the observed durations are wall-clock time and
are not kept), `httpRequestsTotal` by (code, method) and `httpSizesTotal` by
(path, method). -/
structure Metrics where
  httpRequestsResponseTime : Nat
  httpRequestsTotal : CounterVec (Nat × String) Nat
  httpSizesTotal : CounterVec (String × String) F64
  deriving DecidableEq, Repr

/-- The registry after `init`. -/
def Metrics.init : Metrics := ⟨0, [], []⟩

/-- The library and build-time inputs of the server. -/
structure Env where
  /-- The result of `statikFS.Open("/image.jpg")`: the asset, or an error. -/
  asset : Option (List UInt8)
  /-- The function `http.DetectContentType`. -/
  detectContentType : List UInt8 → String
  /-- The spellings `strconv.ParseFloat` accepts beside decimal literals. -/
  parseExt : String → ParseResult
  /-- The handler `promhttp.Handler()`: renders the registry to the writer. -/
  scrape : Metrics → Request → ResponseWriter → ResponseWriter
  /-- The method `URL.String` of the request URL with `Path` replaced. -/
  urlString : Request → String → String
  /-- The `method` label `promhttp` gives a method outside its table: the
  lower-cased name in older releases, `unknown` in newer ones. -/
  otherMethodLabel : String → String

/-- An `http.Handler` of the server: it acts on the writer and the metrics. -/
abbrev Handler := Request → Metrics → ResponseWriter → Metrics × ResponseWriter

/-! ## The handlers of `main` -/

/-- The handler `rootHandler`. -/
def rootHandler : Handler := fun _ m w =>
  let w1 := w.writeHeader 200
  (m, w1.write (bytesOf "Hello from loadtest application."))

/-- The buffer `fHeader` after `f.Read(fHeader)`: 512 bytes, the first
`min 512 size` of them read from the asset and the rest still zero. -/
def readHeader (asset : List UInt8) : List UInt8 :=
  asset.take 512 ++ List.replicate (512 - (asset.take 512).length) 0

/-- The write loop of `io.Copy(w, f)`: nothing is written for an empty file. -/
def ioCopy (w : ResponseWriter) (content : List UInt8) : ResponseWriter :=
  if content = [] then w else w.write content

/-- The handler `fileHandler`. -/
def fileHandler (env : Env) : Handler := fun _ m w =>
  match env.asset with
  | none => (m, httpNotFound w)
  | some f =>
    let fHeader := readHeader f
    let fContentType := env.detectContentType fHeader
    let fSize := formatInt (f.length : Int)
    let w1 := w.setHeader "Content-Type" fContentType
    let w2 := w1.setHeader "Content-Length" fSize
    (m, ioCopy w2 f)

/-- The function `sanitizeMethod` of `promhttp`, which renders the request
method as the `method` label: the methods of its table go to lower case,
any other goes through `other`. -/
def sanitizeMethod (other : String → String) (m : String) : String :=
  if m = "GET" ∨ m = "get" then "get"
  else if m = "PUT" ∨ m = "put" then "put"
  else if m = "HEAD" ∨ m = "head" then "head"
  else if m = "POST" ∨ m = "post" then "post"
  else if m = "DELETE" ∨ m = "delete" then "delete"
  else if m = "CONNECT" ∨ m = "connect" then "connect"
  else if m = "OPTIONS" ∨ m = "options" then "options"
  else if m = "NOTIFY" ∨ m = "notify" then "notify"
  else if m = "TRACE" ∨ m = "trace" then "trace"
  else if m = "PATCH" ∨ m = "patch" then "patch"
  else other m

/-- The decorator `promhttp.InstrumentHandlerCounter(httpRequestsTotal, next)`:
after `next` returns, the child at (status code, sanitised method) is
incremented; the code of a response whose header was never written counts
as 200. The code label is kept as the number it prints. -/
def instrumentHandlerCounter (env : Env) (next : Handler) : Handler := fun r m w =>
  let (m1, w1) := next r m w
  let code := w1.status.getD 200
  let method := sanitizeMethod env.otherMethodLabel r.method
  ({ m1 with httpRequestsTotal :=
      CounterVec.update 0 (· + 1) m1.httpRequestsTotal (code, method) }, w1)

/-- The handler `promhttp.Handler()`, which reads the registry only. -/
def metricsHandler (env : Env) : Handler := fun r m w => (m, env.scrape m r w)

/-- What `ServeMux.Handler` selects for a request. -/
inductive Route where
  | root
  | file
  | metrics
  | redirect (path : String)
  | badRequest
  | notFound
  deriving DecidableEq, Repr

/-- The lookup `mux.handler` over the patterns `/`, `/file` and `/metrics`:
an exact pattern wins, `/` takes every other rooted path. -/
def muxMatch (path : String) : Route :=
  if path = "/file" then .file
  else if path = "/metrics" then .metrics
  else if path.toList.head? = some '/' then .root
  else .notFound

/-- The selection made by `ServeMux.ServeHTTP` and `ServeMux.Handler`. -/
def route (r : Request) : Route :=
  if r.requestURI = "*" then .badRequest
  else if r.method = "CONNECT" then muxMatch r.path
  else if cleanPath r.path ≠ r.path then .redirect (cleanPath r.path)
  else muxMatch r.path

/-- The mux `handler` of `main` with its three registrations. -/
def handler (env : Env) : Handler := fun r m w =>
  match route r with
  | .root => instrumentHandlerCounter env rootHandler r m w
  | .file => instrumentHandlerCounter env (fileHandler env) r m w
  | .metrics => metricsHandler env r m w
  | .redirect p => (m, httpRedirect w r (env.urlString r p))
  | .badRequest =>
    let w1 := if r.protoAtLeast11 then w.setHeader "Connection" "close" else w
    (m, w1.writeHeader 400)
  | .notFound => (m, httpNotFound w)

/-- The result of serving one request: the metrics, the writer, and whether
the handler goroutine panicked (the server then drops the connection). -/
structure Outcome where
  metrics : Metrics
  w : ResponseWriter
  panicked : Bool
  deriving DecidableEq, Repr

/-- The call `httpSizesTotal.With(labels).Add(s)`: the child is looked up or
created, then `Add` panics on a negative value and adds any other. -/
def sizesAdd (m : CounterVec (String × String) F64) (k : String × String) (s : F64) :
    CounterVec (String × String) F64 × Bool :=
  if s.isNeg then (CounterVec.update (.fin 0) id m k, true)
  else (CounterVec.update (.fin 0) (fun v => v.add s) m k, false)

/-- The wrapper `middleware(next)`. -/
def middleware (env : Env) (next : Handler) (r : Request) (m : Metrics)
    (w : ResponseWriter) : Outcome :=
  let (m1, w1) := next r m w
  let m2 := { m1 with httpRequestsResponseTime := m1.httpRequestsResponseTime + 1 }
  let s := (parseFloat env.parseExt (headerGet w1.header "Content-Length")).value
  let (sizes, p) := sizesAdd m2.httpSizesTotal (r.requestURI, r.method) s
  ⟨{ m2 with httpSizesTotal := sizes }, w1, p⟩

/-- The handler `metrics := middleware(handler)` given to `ListenAndServe`. -/
def metrics (env : Env) (r : Request) (m : Metrics) : Outcome :=
  middleware env (handler env) r m ResponseWriter.fresh

/-- The metrics after serving a sequence of requests, one after the other. -/
def serveAll (env : Env) : List Request → Metrics → Metrics
  | [], m => m
  | r :: rs, m => serveAll env rs (metrics env r m).metrics

/-- A `GET` request for `uri` whose URL path is `path`. -/
def getRequest (uri path query : String) : Request := ⟨"GET", uri, path, query, true⟩

/-- An environment for evaluation: the given asset, a sniffer that knows
JPEG and text only, decimal-only `ParseFloat`, and an exporter that writes a
fixed page. -/
def sampleEnv (asset : Option (List UInt8)) : Env where
  asset := asset
  detectContentType := fun bs =>
    if bs.take 3 = [0xFF, 0xD8, 0xFF] then "image/jpeg"
    else if bs.all (fun b => !(b ≤ 0x08 || b = 0x0B || (0x0E ≤ b && b ≤ 0x1A) || (0x1C ≤ b && b ≤ 0x1F)))
    then "text/plain; charset=utf-8"
    else "application/octet-stream"
  parseExt := decimalOnly
  scrape := fun _ _ w => (w.setHeader "Content-Type" "text/plain; version=0.0.4; charset=utf-8").write (bytesOf "# HELP\n")
  urlString := fun r p => if r.rawQuery = "" then p else p ++ "?" ++ r.rawQuery
  otherMethodLabel := fun _ => "unknown"

theorem rootHandler_eq (r : Request) (m : Metrics) :
    rootHandler r m ResponseWriter.fresh =
      (m, ⟨some 200, [], bytesOf "Hello from loadtest application."⟩) := by
  rfl

theorem fileHandler_none (env : Env) (r : Request) (m : Metrics) (h : env.asset = none) :
    fileHandler env r m ResponseWriter.fresh = (m, httpNotFound ResponseWriter.fresh) := by
  simp [fileHandler, h]

theorem fileHandler_metrics (env : Env) (r : Request) (m : Metrics) (w : ResponseWriter) :
    (fileHandler env r m w).1 = m := by
  unfold fileHandler
  cases env.asset <;> rfl

theorem httpNotFound_fresh :
    httpNotFound ResponseWriter.fresh =
      ⟨some 404, [("Content-Type", "text/plain; charset=utf-8"),
        ("X-Content-Type-Options", "nosniff")], bytesOf "404 page not found\n"⟩ := by
  decide

theorem handler_summary (env : Env) (r : Request) (m : Metrics) (w : ResponseWriter) :
    (handler env r m w).1.httpRequestsResponseTime = m.httpRequestsResponseTime := by
  unfold handler
  cases route r <;> simp [instrumentHandlerCounter, rootHandler, metricsHandler]
  · unfold fileHandler
    cases env.asset <;> simp

theorem handler_sizes (env : Env) (r : Request) (m : Metrics) (w : ResponseWriter) :
    (handler env r m w).1.httpSizesTotal = m.httpSizesTotal := by
  unfold handler
  cases route r <;> simp [instrumentHandlerCounter, rootHandler, metricsHandler]
  · unfold fileHandler
    cases env.asset <;> simp

theorem metrics_w (env : Env) (r : Request) (m : Metrics) :
    (metrics env r m).w = (handler env r m ResponseWriter.fresh).2 := by
  simp [metrics, middleware]

theorem root_response (env : Env) (r : Request) (m : Metrics) (h : route r = Route.root) :
    (metrics env r m).w = ⟨some 200, [], bytesOf "Hello from loadtest application."⟩ := by
  rw [metrics_w]
  simp [handler, h, instrumentHandlerCounter, rootHandler_eq]

theorem root_requests (env : Env) (r : Request) (m : Metrics) (h : route r = Route.root) :
    (metrics env r m).metrics.httpRequestsTotal =
      CounterVec.update 0 (· + 1) m.httpRequestsTotal
        (200, sanitizeMethod env.otherMethodLabel r.method) := by
  simp [metrics, middleware, handler, h, instrumentHandlerCounter, rootHandler_eq]

/-! ## Facts about counter vectors -/

theorem CounterVec.get_update_self {κ α : Type} [DecidableEq κ] (d : α) (f : α → α)
    (m : CounterVec κ α) (k : κ) :
    CounterVec.get d (CounterVec.update d f m k) k = f (CounterVec.get d m k) := by
  induction m with
  | nil => simp [CounterVec.update, CounterVec.get]
  | cons e m ih =>
    obtain ⟨k', v⟩ := e
    by_cases hk : k' = k
    · simp [CounterVec.update, CounterVec.get, hk]
    · simp [CounterVec.update, CounterVec.get, hk, ih]

theorem CounterVec.get_update_other {κ α : Type} [DecidableEq κ] (d : α) (f : α → α)
    (m : CounterVec κ α) (k k' : κ) (h : k ≠ k') :
    CounterVec.get d (CounterVec.update d f m k) k' = CounterVec.get d m k' := by
  induction m with
  | nil => simp [CounterVec.update, CounterVec.get, h]
  | cons e m ih =>
    obtain ⟨k0, v⟩ := e
    by_cases hk : k0 = k
    · subst hk
      simp [CounterVec.update, CounterVec.get, h]
    · by_cases hk' : k0 = k'
      · subst hk'
        simp [CounterVec.update, CounterVec.get, hk]
      · simp [CounterVec.update, CounterVec.get, hk, hk', ih]

theorem CounterVec.keys_update {κ α : Type} [DecidableEq κ] (d : α) (f : α → α)
    (m : CounterVec κ α) (k k' : κ) (h : k' ∈ m.map Prod.fst) :
    k' ∈ (CounterVec.update d f m k).map Prod.fst := by
  induction m with
  | nil => simp at h
  | cons e m ih =>
    obtain ⟨k0, v⟩ := e
    by_cases hk : k0 = k
    · simpa [CounterVec.update, hk] using h
    · simp only [List.map_cons, List.mem_cons] at h
      rcases h with h | h
      · simp [CounterVec.update, hk, h]
      · simp [CounterVec.update, hk, ih h]

theorem CounterVec.total_update_succ {κ : Type} [DecidableEq κ]
    (m : CounterVec κ Nat) (k : κ) :
    CounterVec.total (CounterVec.update 0 (· + 1) m k) = CounterVec.total m + 1 := by
  induction m with
  | nil => simp [CounterVec.update, CounterVec.total]
  | cons e m ih =>
    obtain ⟨k0, v⟩ := e
    by_cases hk : k0 = k
    · simp [CounterVec.update, CounterVec.total, hk]
      omega
    · simp only [CounterVec.total] at ih
      simp [CounterVec.update, CounterVec.total, hk, ih]
      omega

/-! ## `ParseFloat` reads back what `FormatInt` prints -/

theorem digitVal_digitChar (x : Nat) (h : x < 10) : digitVal (Nat.digitChar x) = some x := by
  interval_cases x <;> rfl

theorem readSign_digitChar (x : Nat) (h : x < 10) (rest : List Char) :
    readSign (Nat.digitChar x :: rest) = (false, Nat.digitChar x :: rest) := by
  interval_cases x <;> rfl

theorem toDigitsCore_read (fuel : Nat) :
    ∀ (n : Nat) (ds : List Char), n < fuel →
      ∃ pre : List Char, Nat.toDigitsCore 10 fuel n ds = pre ++ ds ∧ pre ≠ [] ∧
        (∀ rest, readSign (pre ++ rest) = (false, pre ++ rest)) ∧
        (∀ acc k rest, readDigits (pre ++ rest) acc k =
          readDigits rest (acc * 10 ^ pre.length + n) (k + pre.length)) := by
  induction fuel with
  | zero => intro n ds h; omega
  | succ fuel ih =>
    intro n ds h
    by_cases h0 : n / 10 = 0
    · refine ⟨[Nat.digitChar (n % 10)], ?_, by simp, ?_, ?_⟩
      · simp [Nat.toDigitsCore, h0]
      · intro rest
        exact readSign_digitChar _ (Nat.mod_lt _ (by decide)) rest
      · intro acc k rest
        have hn : n % 10 = n := Nat.mod_eq_of_lt (by omega)
        simp only [List.singleton_append, readDigits,
          digitVal_digitChar _ (Nat.mod_lt n (by decide : 0 < 10)), List.length_singleton,
          pow_one]
        rw [hn, Nat.mul_comm]
        rfl
    · obtain ⟨pre, hpre, hne, hsign, hread⟩ :=
        ih (n / 10) (Nat.digitChar (n % 10) :: ds) (by omega)
      refine ⟨pre ++ [Nat.digitChar (n % 10)], ?_, by simp, ?_, ?_⟩
      · simp [Nat.toDigitsCore, h0, hpre]
      · intro rest
        simpa using hsign (Nat.digitChar (n % 10) :: rest)
      · intro acc k rest
        have h1 := hread acc k (Nat.digitChar (n % 10) :: rest)
        simp only [List.append_assoc, List.singleton_append, List.length_append,
          List.length_singleton]
        rw [h1]
        simp only [readDigits, digitVal_digitChar _ (Nat.mod_lt n (by decide : 0 < 10))]
        congr 1
        · have := Nat.div_add_mod n 10
          rw [pow_succ]
          nlinarith [this]

theorem parseDecimal_toDigits (n : Nat) :
    parseDecimal (Nat.toDigits 10 n) = some (decimalResult false n (Int.ofNat 0)) := by
  obtain ⟨pre, hpre, hne, hsign, hread⟩ := toDigitsCore_read (n + 1) n [] (Nat.lt_succ_self n)
  have hs := hsign []
  have hr := hread 0 0 []
  simp only [List.append_nil] at hpre hs hr
  have hlen : pre.length ≠ 0 := by
    intro hl
    exact hne (List.length_eq_zero.mp hl)
  unfold parseDecimal Nat.toDigits
  rw [hpre, hs]
  simp only [hr, readDigits, Nat.zero_mul, Nat.zero_add]
  simp only [Nat.add_zero, hlen, if_false]
  rfl

theorem decimalResult_nat (n : Nat) :
    decimalResult false n (Int.ofNat 0) =
      if maxFloat64Bound ≤ n then .errRange false else .ok (.fin (n : ℚ)) := by
  simp only [decimalResult, pow_zero, Nat.mul_one, signedRat]
  split
  · rfl
  · simp [Rat.mkRat_one]

theorem parseFloat_formatInt_general (ext : String → ParseResult) (n : Nat) :
    parseFloat ext (formatInt (n : Int)) =
      if maxFloat64Bound ≤ n then .errRange false else .ok (.fin (n : ℚ)) := by
  have h1 : formatInt (n : Int) = Nat.repr n := rfl
  have h2 : (Nat.repr n).toList = Nat.toDigits 10 n := rfl
  simp only [parseFloat, h1, h2, parseDecimal_toDigits n, decimalResult_nat]

theorem parseFloat_formatInt (ext : String → ParseResult) (n : Nat)
    (h : n < maxFloat64Bound) :
    parseFloat ext (formatInt (n : Int)) = .ok (.fin (n : ℚ)) := by
  rw [parseFloat_formatInt_general, if_neg (Nat.not_le.mpr h)]

theorem parseFloat_formatInt_not_neg (ext : String → ParseResult) (n : Nat) :
    (parseFloat ext (formatInt (n : Int))).value.isNeg = false := by
  rw [parseFloat_formatInt_general]
  split
  · rfl
  · simp [ParseResult.value, F64.isNeg]

theorem two_pow_53_lt_bound : 2 ^ 53 < maxFloat64Bound := by
  norm_num [maxFloat64Bound]

/-! ## The file route when the asset opens -/

theorem fileHandler_some (env : Env) (r : Request) (m : Metrics) (f : List UInt8)
    (h : env.asset = some f) :
    fileHandler env r m ResponseWriter.fresh =
      (m, ⟨if f = [] then none else some 200,
        [("Content-Type", env.detectContentType (readHeader f)),
          ("Content-Length", formatInt (f.length : Int))], f⟩) := by
  by_cases hf : f = []
  · subst hf
    simp [fileHandler, h, ioCopy, ResponseWriter.setHeader, ResponseWriter.fresh, headerSet]
  · simp [fileHandler, h, ioCopy, hf, ResponseWriter.setHeader, ResponseWriter.fresh,
      headerSet, ResponseWriter.write, ResponseWriter.writeHeader]

theorem readHeader_of_long (f : List UInt8) (h : 512 ≤ f.length) :
    readHeader f = f.take 512 := by
  simp [readHeader, List.length_take, Nat.min_eq_left h]

theorem file_response (env : Env) (r : Request) (m : Metrics) (f : List UInt8)
    (hr : route r = Route.file) (h : env.asset = some f) :
    (metrics env r m).w.statusCode = 200 ∧
      (metrics env r m).w.header =
        [("Content-Type", env.detectContentType (readHeader f)),
          ("Content-Length", formatInt (f.length : Int))] ∧
      (metrics env r m).w.body = f := by
  rw [metrics_w]
  simp only [handler, hr, instrumentHandlerCounter, fileHandler_some env r m f h]
  by_cases hf : f = [] <;> simp [ResponseWriter.statusCode, hf]

theorem requests_total_step (env : Env) (r : Request) (m : Metrics) :
    CounterVec.total (metrics env r m).metrics.httpRequestsTotal =
      CounterVec.total m.httpRequestsTotal +
        (if route r = Route.root ∨ route r = Route.file then 1 else 0) := by
  simp only [metrics, middleware, handler]
  cases hr : route r <;>
    simp [instrumentHandlerCounter, metricsHandler, CounterVec.total_update_succ,
      rootHandler, fileHandler_metrics]

/-! ## The size counter step of `middleware` -/

theorem F64.add_zero (v : F64) : v.add (.fin 0) = v := by
  cases v <;> simp [F64.add]

theorem parseFloat_empty (ext : String → ParseResult) : parseFloat ext "" = .errSyntax := by
  rfl

theorem middleware_sizes (env : Env) (next : Handler) (r : Request) (m : Metrics)
    (w : ResponseWriter) :
    (middleware env next r m w).metrics.httpSizesTotal =
        (sizesAdd (next r m w).1.httpSizesTotal (r.requestURI, r.method)
          (parseFloat env.parseExt (headerGet (next r m w).2.header "Content-Length")).value).1 ∧
      (middleware env next r m w).panicked =
        (sizesAdd (next r m w).1.httpSizesTotal (r.requestURI, r.method)
          (parseFloat env.parseExt (headerGet (next r m w).2.header "Content-Length")).value).2 ∧
      (middleware env next r m w).w = (next r m w).2 := by
  simp [middleware]

theorem F64.lt_irrefl (v : F64) : ¬ F64.lt v v := by
  cases v <;> simp [F64.lt]

theorem F64.not_lt_add (v s : F64) (hs : s.isNeg = false) : ¬ F64.lt (v.add s) v := by
  cases v <;> cases s <;> simp_all [F64.add, F64.lt, F64.isNeg]

theorem sizesAdd_mono (m : CounterVec (String × String) F64) (k k' : String × String)
    (s : F64) :
    ¬ F64.lt (CounterVec.get (.fin 0) (sizesAdd m k s).1 k') (CounterVec.get (.fin 0) m k') := by
  by_cases hk : k = k'
  · subst hk
    by_cases hs : s.isNeg = true
    · simp only [sizesAdd, hs, if_true, CounterVec.get_update_self, id]
      exact F64.lt_irrefl _
    · simp only [sizesAdd, hs, Bool.false_eq_true, if_false, CounterVec.get_update_self]
      exact F64.not_lt_add _ _ (by simpa using hs)
  · by_cases hs : s.isNeg = true
    · simp only [sizesAdd, hs, if_true, CounterVec.get_update_other _ _ _ _ _ hk]
      exact F64.lt_irrefl _
    · simp only [sizesAdd, hs, Bool.false_eq_true, if_false,
        CounterVec.get_update_other _ _ _ _ _ hk]
      exact F64.lt_irrefl _

theorem sizesAdd_keys (m : CounterVec (String × String) F64) (k k' : String × String)
    (s : F64) (h : k' ∈ m.map Prod.fst) : k' ∈ (sizesAdd m k s).1.map Prod.fst := by
  unfold sizesAdd
  split <;> exact CounterVec.keys_update _ _ _ _ _ h

theorem sizesAdd_panic (m : CounterVec (String × String) F64) (k : String × String)
    (s : F64) : (sizesAdd m k s).2 = s.isNeg := by
  unfold sizesAdd
  split <;> simp_all

theorem update_succ_mono (m : CounterVec (Nat × String) Nat) (k k' : Nat × String) :
    CounterVec.get 0 m k' ≤ CounterVec.get 0 (CounterVec.update 0 (· + 1) m k) k' := by
  by_cases hk : k = k'
  · subst hk
    rw [CounterVec.get_update_self]
    exact Nat.le_succ _
  · rw [CounterVec.get_update_other _ _ _ _ _ hk]

theorem handler_requests_mono (env : Env) (r : Request) (m : Metrics) (w : ResponseWriter)
    (k : Nat × String) :
    CounterVec.get 0 m.httpRequestsTotal k ≤
      CounterVec.get 0 (handler env r m w).1.httpRequestsTotal k := by
  unfold handler
  cases route r <;>
    simp [instrumentHandlerCounter, rootHandler, metricsHandler, fileHandler_metrics,
      update_succ_mono]

theorem handler_requests_keys (env : Env) (r : Request) (m : Metrics) (w : ResponseWriter)
    (k : Nat × String) (h : k ∈ m.httpRequestsTotal.map Prod.fst) :
    k ∈ (handler env r m w).1.httpRequestsTotal.map Prod.fst := by
  unfold handler
  cases route r
  case root => exact CounterVec.keys_update _ _ _ _ _ h
  case file =>
    simp only [instrumentHandlerCounter]
    rw [fileHandler_metrics]
    exact CounterVec.keys_update _ _ _ _ _ h
  all_goals exact h

theorem metrics_requests (env : Env) (r : Request) (m : Metrics) :
    (metrics env r m).metrics.httpRequestsTotal =
      (handler env r m ResponseWriter.fresh).1.httpRequestsTotal := by
  simp [metrics, middleware]

theorem cleanPath_head (p : String) : (cleanPath p).toList.head? = some '/' := by
  unfold cleanPath
  by_cases hp : p = ""
  · simp [hp]
  · simp only [hp, if_false]
    split <;> simp only [pathClean] <;> split <;> rfl

/-! ## The `Content-Length` the server's own handlers leave -/

theorem route_get_file (q : String) (proto : Bool) :
    route ⟨"GET", "/file", "/file", q, proto⟩ = Route.file := by
  have hc : cleanPath "/file" = "/file" := by decide
  simp [route, muxMatch, hc]

theorem handler_length_not_neg (env : Env) (r : Request) (m : Metrics)
    (h : route r ≠ Route.metrics) :
    (parseFloat env.parseExt
      (headerGet (handler env r m ResponseWriter.fresh).2.header "Content-Length")).value.isNeg
      = false := by
  unfold handler
  cases hr : route r
  case metrics => exact absurd hr h
  case root => rfl
  case file =>
    simp only [instrumentHandlerCounter]
    cases ha : env.asset with
    | none => rw [fileHandler_none env r m ha]; rfl
    | some f =>
      rw [fileHandler_some env r m f ha]
      have hg : headerGet [("Content-Type", env.detectContentType (readHeader f)),
          ("Content-Length", formatInt (f.length : Int))] "Content-Length"
          = formatInt (f.length : Int) := by
        simp [headerGet]
      simp only [hg]
      exact parseFloat_formatInt_not_neg _ _
  case redirect p =>
    simp only [httpRedirect, ResponseWriter.fresh, headerHas]
    split <;> split <;> rfl
  case badRequest =>
    simp only []
    split <;> rfl
  case notFound => rfl

/-! ## The claims -/

/-- C1: every request the mux dispatches to the root handler, whatever its
method and path, is answered with status 200 and a body that is exactly the
bytes of "Hello from loadtest application.". -/
theorem root_status_and_body (env : Env) (r : Request) (m : Metrics)
    (h : route r = Route.root) :
    (metrics env r m).w.statusCode = 200 ∧
      (metrics env r m).w.body = bytesOf "Hello from loadtest application." := by
  rw [root_response env r m h]
  exact ⟨rfl, rfl⟩

/-- Witness of C1 at a `POST` to `/any/path?q=1`. -/
theorem root_status_and_body_witness :
    route ⟨"POST", "/any/path?q=1", "/any/path", "q=1", true⟩ = Route.root ∧
      (metrics (sampleEnv none) ⟨"POST", "/any/path?q=1", "/any/path", "q=1", true⟩
        Metrics.init).w.statusCode = 200 ∧
      (metrics (sampleEnv none) ⟨"POST", "/any/path?q=1", "/any/path", "q=1", true⟩
        Metrics.init).w.body = bytesOf "Hello from loadtest application." :=
  ⟨by decide, root_status_and_body (sampleEnv none) _ Metrics.init (by decide)⟩

/-- C3, as stated, fails: when the asset cannot be opened the body of the
answer to `GET /file` is not empty. -/
theorem file_open_error_body_nonempty :
    (metrics (sampleEnv none) (getRequest "/file" "/file" "") Metrics.init).w.statusCode = 404 ∧
      (metrics (sampleEnv none) (getRequest "/file" "/file" "") Metrics.init).w.body ≠ [] := by
  decide

/-- C3, amended: when opening the asset fails, a request to `/file` gets
status 404, the body is exactly the line "404 page not found" written by
`http.NotFound`, the content type is the plain-text one of that line, and no
`Content-Length` header is set. -/
theorem file_open_error_response (env : Env) (r : Request) (m : Metrics)
    (hr : route r = Route.file) (ha : env.asset = none) :
    (metrics env r m).w.statusCode = 404 ∧
      (metrics env r m).w.body = bytesOf "404 page not found\n" ∧
      headerGet (metrics env r m).w.header "Content-Type" = "text/plain; charset=utf-8" ∧
      headerHas (metrics env r m).w.header "Content-Length" = false := by
  rw [metrics_w]
  simp only [handler, hr, instrumentHandlerCounter, fileHandler_none env r m ha,
    httpNotFound_fresh]
  decide

/-- Witness of the amended C3 at `GET /file` with an asset that fails to open. -/
theorem file_open_error_response_witness :
    route (getRequest "/file" "/file" "") = Route.file ∧ (sampleEnv none).asset = none ∧
      (metrics (sampleEnv none) (getRequest "/file" "/file" "") Metrics.init).w.statusCode = 404 ∧
      (metrics (sampleEnv none) (getRequest "/file" "/file" "") Metrics.init).w.body
        = bytesOf "404 page not found\n" :=
  have h := file_open_error_response (sampleEnv none) (getRequest "/file" "/file" "")
    Metrics.init (by decide) rfl
  ⟨by decide, rfl, h.1, h.2.1⟩

/-- C6: every request served through the middleware, on any route (the
scrape route, redirects and 404 answers included), raises the sample count
of the response-time summary by exactly one. -/
theorem summary_count_increments (env : Env) (r : Request) (m : Metrics) :
    (metrics env r m).metrics.httpRequestsResponseTime = m.httpRequestsResponseTime + 1 := by
  simp only [metrics, middleware]
  rw [handler_summary]

/-- C8, as stated, fails: `GET /missing` is answered with 200, not 404. -/
theorem missing_path_is_not_404 :
    (metrics (sampleEnv none) (getRequest "/missing" "/missing" "") Metrics.init).w.statusCode ≠ 404 ∧
      (metrics (sampleEnv none) (getRequest "/missing" "/missing" "") Metrics.init).w.statusCode = 200 := by
  decide

/-- C8, amended: a `GET` whose path is neither `/file` nor `/metrics` and is
in the mux's canonical form (path cleaning leaves it unchanged, the request
target is not `*`), such as `/missing`, is not answered with 404: the
pattern `/` takes it and the root handler answers 200 with the greeting,
counted under code 200 and method `get`. -/
theorem unregistered_path_served_by_root (env : Env) (m : Metrics)
    (uri path q : String) (proto : Bool)
    (huri : uri ≠ "*") (hclean : cleanPath path = path)
    (hfile : path ≠ "/file") (hmetrics : path ≠ "/metrics") :
    route ⟨"GET", uri, path, q, proto⟩ = Route.root ∧
      (metrics env ⟨"GET", uri, path, q, proto⟩ m).w.statusCode = 200 ∧
      (metrics env ⟨"GET", uri, path, q, proto⟩ m).w.body
        = bytesOf "Hello from loadtest application." ∧
      CounterVec.get 0 (metrics env ⟨"GET", uri, path, q, proto⟩ m).metrics.httpRequestsTotal
        (200, "get") = CounterVec.get 0 m.httpRequestsTotal (200, "get") + 1 := by
  have hr : route ⟨"GET", uri, path, q, proto⟩ = Route.root := by
    have hhead := cleanPath_head path
    rw [hclean] at hhead
    have hhead2 : path.data.head? = some '/' := hhead
    simp [route, muxMatch, huri, hclean, hfile, hmetrics, hhead2]
  refine ⟨hr, ?_, ?_, ?_⟩
  · rw [root_response env _ m hr]; rfl
  · rw [root_response env _ m hr]
  · rw [root_requests env _ m hr]
    exact CounterVec.get_update_self 0 (· + 1) m.httpRequestsTotal (200, "get")

/-- Witness of the amended C8 at `GET /missing`. -/
theorem unregistered_path_served_by_root_witness :
    cleanPath "/missing" = "/missing" ∧
      route ⟨"GET", "/missing", "/missing", "", true⟩ = Route.root ∧
      (metrics (sampleEnv none) ⟨"GET", "/missing", "/missing", "", true⟩
        Metrics.init).w.statusCode = 200 :=
  have h := unregistered_path_served_by_root (sampleEnv none) Metrics.init
    "/missing" "/missing" "" true (by decide) (by decide) (by decide) (by decide)
  ⟨by decide, h.1, h.2.1⟩

/-- C2 at an asset shorter than 512 bytes: the content type sent for the
empty asset is the sniff of 512 zero bytes, not the sniff of the asset's
(empty) prefix; with a sniffer that tells text from binary the two differ. -/
theorem short_asset_sniffs_zero_padding (env : Env) (r : Request) (m : Metrics) :
    headerGet (fileHandler { env with asset := some [] } r m ResponseWriter.fresh).2.header
        "Content-Type" = env.detectContentType (List.replicate 512 0) ∧
      headerGet (metrics (sampleEnv (some [])) (getRequest "/file" "/file" "")
        Metrics.init).w.header "Content-Type" = "application/octet-stream" ∧
      (sampleEnv (some [])).detectContentType (([] : List UInt8).take 512)
        = "text/plain; charset=utf-8" := by
  refine ⟨?_, by decide, by decide⟩
  rw [fileHandler_some _ r m [] rfl]
  rfl

/-- C4 at a single `GET /metrics` from the initial state: one request was
served and the request counter still sums to zero. -/
theorem scrape_is_not_counted (env : Env) :
    CounterVec.total
      (serveAll env [getRequest "/metrics" "/metrics" ""] Metrics.init).httpRequestsTotal = 0 := by
  simp only [serveAll, requests_total_step]
  decide

/-- C9 at `GET /file` followed by `GET /file?x=1`: the sizes go to two
entries, one per request URI, and not to one entry per path. -/
theorem query_string_splits_size_entries :
    (serveAll (sampleEnv (some [1, 2, 3]))
        [getRequest "/file" "/file" "", getRequest "/file?x=1" "/file" "x=1"]
        Metrics.init).httpSizesTotal =
      [(("/file", "GET"), F64.fin 3), (("/file?x=1", "GET"), F64.fin 3)] := by
  decide!

/-- C5: when the asset opens, a `GET /file` adds exactly the asset's size to
the size counter's entry at (path "/file", method "GET"): an entry holding
the integer `t` holds `t + size` afterwards, and from the initial state the
entry holds exactly the size. The bound `t + size ≤ 2 ^ 53` keeps every
value involved an integer that `float64` represents exactly. The middleware
parses the header the file handler has set before it returned. -/
theorem file_size_accumulates (env : Env) (f : List UInt8) (m : Metrics) (q : String)
    (proto : Bool) (t : Nat) (ha : env.asset = some f)
    (ht : CounterVec.get (F64.fin 0) m.httpSizesTotal ("/file", "GET") = F64.fin (t : ℚ))
    (hsum : t + f.length ≤ 2 ^ 53) :
    CounterVec.get (F64.fin 0)
        (metrics env ⟨"GET", "/file", "/file", q, proto⟩ m).metrics.httpSizesTotal
        ("/file", "GET") = F64.fin ((t + f.length : Nat) : ℚ) ∧
    CounterVec.get (F64.fin 0)
        (metrics env ⟨"GET", "/file", "/file", q, proto⟩ Metrics.init).metrics.httpSizesTotal
        ("/file", "GET") = F64.fin (f.length : ℚ) ∧
    (metrics env ⟨"GET", "/file", "/file", q, proto⟩ m).panicked = false := by
  have hsz : f.length < maxFloat64Bound :=
    Nat.lt_of_le_of_lt (Nat.le_trans (Nat.le_add_left _ _) hsum) two_pow_53_lt_bound
  have key : ∀ m0 : Metrics,
      (metrics env ⟨"GET", "/file", "/file", q, proto⟩ m0).metrics.httpSizesTotal =
        CounterVec.update (F64.fin 0) (fun v => v.add (F64.fin (f.length : ℚ)))
          m0.httpSizesTotal ("/file", "GET") ∧
      (metrics env ⟨"GET", "/file", "/file", q, proto⟩ m0).panicked = false := by
    intro m0
    obtain ⟨h1, h2, -⟩ := middleware_sizes env (handler env)
      ⟨"GET", "/file", "/file", q, proto⟩ m0 ResponseWriter.fresh
    have hh : handler env ⟨"GET", "/file", "/file", q, proto⟩ m0 ResponseWriter.fresh =
        instrumentHandlerCounter env (fileHandler env) ⟨"GET", "/file", "/file", q, proto⟩ m0
          ResponseWriter.fresh := by
      simp only [handler, route_get_file]
    have hp : parseFloat env.parseExt (formatInt (f.length : Int)) =
        ParseResult.ok (F64.fin (f.length : ℚ)) :=
      parseFloat_formatInt _ _ hsz
    have hneg : F64.isNeg (F64.fin (f.length : ℚ)) = false := by simp [F64.isNeg]
    simp only [metrics]
    rw [h1, h2, hh]
    simp only [instrumentHandlerCounter, fileHandler_some env _ m0 f ha, headerGet]
    simp [hp, ParseResult.value, sizesAdd, hneg]
  refine ⟨?_, ?_, (key m).2⟩
  · rw [(key m).1, CounterVec.get_update_self, ht]
    simp [F64.add]
  · rw [(key Metrics.init).1, CounterVec.get_update_self]
    simp [Metrics.init, CounterVec.get, F64.add]

/-- Witness of C5 at a four-byte asset and an entry that already holds 4. -/
theorem file_size_accumulates_witness :
    (sampleEnv (some [0xFF, 0xD8, 0xFF, 0xE0])).asset = some [0xFF, 0xD8, 0xFF, 0xE0] ∧
      CounterVec.get (F64.fin 0)
        (metrics (sampleEnv (some [0xFF, 0xD8, 0xFF, 0xE0])) ⟨"GET", "/file", "/file", "", true⟩
          ⟨1, [((200, "get"), 1)], [(("/file", "GET"), F64.fin 4)]⟩).metrics.httpSizesTotal
        ("/file", "GET") = F64.fin 8 ∧
      CounterVec.get (F64.fin 0)
        (metrics (sampleEnv (some [0xFF, 0xD8, 0xFF, 0xE0])) ⟨"GET", "/file", "/file", "", true⟩
          Metrics.init).metrics.httpSizesTotal ("/file", "GET") = F64.fin 4 :=
  have h := file_size_accumulates (sampleEnv (some [0xFF, 0xD8, 0xFF, 0xE0]))
    [0xFF, 0xD8, 0xFF, 0xE0] ⟨1, [((200, "get"), 1)], [(("/file", "GET"), F64.fin 4)]⟩
    "" true 4 rfl (by simp [CounterVec.get]) (by decide)
  ⟨rfl, by simpa using h.1, by simpa using h.2.1⟩

/-- C10: serving a request, on any route and from any metrics state, lowers
nothing: the summary's sample count and every entry of the request counter
do not decrease, no entry of the size counter becomes smaller, every label
pair present before is present after, and the amount that reaches the size
counter is not negative (never for the server's own handlers; a negative
length from the exporter makes `Add` panic instead of being added). -/
theorem metrics_state_monotone (env : Env) (r : Request) (m : Metrics) :
    m.httpRequestsResponseTime ≤ (metrics env r m).metrics.httpRequestsResponseTime ∧
      (∀ k, CounterVec.get 0 m.httpRequestsTotal k ≤
        CounterVec.get 0 (metrics env r m).metrics.httpRequestsTotal k) ∧
      (∀ k, ¬ F64.lt (CounterVec.get (F64.fin 0) (metrics env r m).metrics.httpSizesTotal k)
        (CounterVec.get (F64.fin 0) m.httpSizesTotal k)) ∧
      (∀ k, k ∈ m.httpRequestsTotal.map Prod.fst →
        k ∈ (metrics env r m).metrics.httpRequestsTotal.map Prod.fst) ∧
      (∀ k, k ∈ m.httpSizesTotal.map Prod.fst →
        k ∈ (metrics env r m).metrics.httpSizesTotal.map Prod.fst) ∧
      ((metrics env r m).panicked = false →
        (parseFloat env.parseExt
          (headerGet (metrics env r m).w.header "Content-Length")).value.isNeg = false) ∧
      (route r ≠ Route.metrics → (metrics env r m).panicked = false) := by
  obtain ⟨h1, h2, h3⟩ := middleware_sizes env (handler env) r m ResponseWriter.fresh
  have hw : (metrics env r m).w = (handler env r m ResponseWriter.fresh).2 := h3
  have hs : (metrics env r m).metrics.httpSizesTotal = _ := h1
  have hp : (metrics env r m).panicked = _ := h2
  refine ⟨?_, ?_, ?_, ?_, ?_, ?_, ?_⟩
  · simp only [metrics, middleware]
    rw [handler_summary]
    exact Nat.le_succ _
  · intro k
    rw [metrics_requests]
    exact handler_requests_mono env r m _ k
  · intro k
    rw [hs, handler_sizes]
    exact sizesAdd_mono _ _ k _
  · intro k hk
    rw [metrics_requests]
    exact handler_requests_keys env r m _ k hk
  · intro k hk
    rw [hs, handler_sizes]
    exact sizesAdd_keys _ _ k _ hk
  · intro hnp
    rw [hp, sizesAdd_panic] at hnp
    rw [hw]
    exact hnp
  · intro hr
    rw [hp, sizesAdd_panic]
    exact handler_length_not_neg env r m hr

end HeyLoadtest
